import Mathlib

/-!
Formal model of the image-processing stages of `src/entity/image_processor.py`.
Images are modelled by their pixel dimensions (width, height); the external
raster primitives from `utils` (absent from the sources) are modelled from the
spec's collaborator contracts.  Rational numbers stand for Python float
arithmetic; `pyInt` stands for Python's `int()` truncation.
-/

set_option autoImplicit false

/-- Python `int()` applied to a rational value: truncation toward zero. -/
def pyInt (q : ℚ) : ℤ := if 0 ≤ q then ⌊q⌋ else -⌊-q⌋

/-- A raster image, modelled by its pixel dimensions. -/
structure Img where
  w : ℤ
  h : ℤ
deriving DecidableEq

/-- Which sides receive padding; mirrors the `padding_location` strings of
`utils.padding_image` (for instance the string tb selects top and bottom). -/
structure PadSides where
  t : Bool
  b : Bool
  l : Bool
  r : Bool
deriving DecidableEq

/-- The side set named by the string tb in the sources. -/
def side_tb : PadSides := ⟨true, true, false, false⟩

/-- The side set named by the string t in the sources. -/
def side_t : PadSides := ⟨true, false, false, false⟩

/-- The side set named by the string b in the sources. -/
def side_b : PadSides := ⟨false, true, false, false⟩

/-- The side set named by the string tlr in the sources. -/
def side_tlr : PadSides := ⟨true, false, true, true⟩

/-- The side set named by the string tlrb in the sources. -/
def side_tlrb : PadSides := ⟨true, true, true, true⟩

/-- Modelled from the spec: the `padding_image` border-expansion primitive of
`utils` (the `utils` module is not among the sources); the spec lists it as
"border expansion (bitmap, per-side padding, fill)", so each selected side
receives `p` pixels of padding. -/
def padding_image (img : Img) (p : ℤ) (loc : PadSides) : Img :=
  ⟨img.w + (if loc.l then p else 0) + (if loc.r then p else 0),
   img.h + (if loc.t then p else 0) + (if loc.b then p else 0)⟩

/-- Modelled from the spec: `concatenate_image` of `utils` (not among the
sources) stacks bitmaps vertically, so heights add and the width is the
widest member's width. -/
def concatenate_image (imgs : List Img) : Img :=
  ⟨(imgs.map Img.w).foldr max 0, (imgs.map Img.h).foldr (· + ·) 0⟩

/-- Modelled from the spec: `resize_image_with_width` of `utils` (not among the
sources) scales a bitmap uniformly (aspect preserving) to the target width. -/
def resize_image_with_width (img : Img) (target : ℤ) : Img :=
  ⟨target, pyInt ((img.h : ℚ) * target / img.w)⟩

/-- The fixed spacer placed between the two texts of a watermark column:
`Image.new(RGBA, (10, 100), color=bg_color)` in `WatermarkProcessor.process`. -/
def empty_padding : Img := ⟨10, 100⟩

/-- Column assembly of `WatermarkProcessor.process`: the top and the bottom
quadrant text bitmaps stacked with the fixed spacer between them. -/
def watermark_column (top bottom : Img) : Img :=
  concatenate_image [top, empty_padding, bottom]

/-- Column-normalization step of `WatermarkProcessor.process` (source lines
171-175): take the taller column's height, pad the left column on top and
bottom by `int(max_height * padding_ratio)`, pad the right column on top by the
same amount, then pad the right column's bottom by the difference of the
current heights. -/
def normalize_columns (left right : Img) (padding_ratio : ℚ) : Img × Img :=
  let max_height : ℤ := max left.h right.h
  let p : ℤ := pyInt ((max_height : ℚ) * padding_ratio)
  let left2 := padding_image left p side_tb
  let right2 := padding_image right p side_t
  let right3 := padding_image right2 (left2.h - right2.h) side_b
  (left2, right3)

/-- Dimensions of `Image.alpha_composite(bg, fg)`: PIL requires both canvases
to have identical size and returns that size; the accompanying theorem proves
the two canvases built by `WatermarkProcessor.process` are indeed the same
size. -/
def alpha_composite (bg : Img) (_fg : Img) : Img := ⟨bg.w, bg.h⟩

/-- Outcome of the watermark composition step: the two intermediate canvases,
the composed result, and the row at which the band content starts. -/
structure CompositeOut where
  bg : Img
  fg : Img
  result : Img
  band_top : ℤ
deriving DecidableEq

/-- Band-and-photo composition of `WatermarkProcessor.process` (source lines
203-214): the assembled band is rescaled to the working width, the photo canvas
is expanded downward by the band height (`ImageOps.expand` with border
`(0, 0, 0, watermark.height)`), the band canvas is expanded upward by the photo
height (border `(0, container.get_height(), 0, 0)`), and the two canvases are
alpha-composited.  The final `exif_transpose` and `convert(RGB)` leave the
dimensions unchanged: the freshly composed image carries no orientation tag.
The color and logo-position subclass variants do not override `process`, so
this covers every variant. -/
def watermark_composite (photo band : Img) : CompositeOut :=
  let wm := resize_image_with_width band photo.w
  let bg := padding_image photo wm.h side_b
  let fg := padding_image wm photo.h side_t
  { bg := bg, fg := fg, result := alpha_composite bg fg, band_top := photo.h }

/-- Aspect ratios of the container, per the spec's data model:
aspect ratio = width/height. -/
def img_aspect (img : Img) : ℚ := (img.w : ℚ) / img.h

/-- `PaddingToOriginalRatioProcessor.process` (source lines 348-359), on
dimensions.  `ImageOps.expand` with a two-component border `(x, y)` pads BOTH
left and right by `x` and BOTH top and bottom by `y`; with a negative
component, PIL builds the smaller canvas and the paste crops the image. -/
def padding_to_original_ratio_process (img : Img) (original_aspect : ℚ) : Img :=
  if original_aspect > img_aspect img then
    let padding_size := pyInt ((img.w : ℚ) / original_aspect - img.h)
    ⟨img.w, img.h + 2 * padding_size⟩
  else
    let padding_size := pyInt ((img.h : ℚ) * original_aspect - img.w)
    ⟨img.w + 2 * padding_size, img.h⟩

/-- Rounding to two decimal places, the `round(x, 2)` of the spec, expressed as
an integer count of hundredths. -/
def round2 (q : ℚ) : ℤ := round (100 * q)

/-- `MarginProcessor.process` (source lines 294-298): pads top, left and right
(the location string tlr) by `int(margin_width * min(W, H) / 100)`. -/
def margin_process (img : Img) (margin_width : ℤ) : Img :=
  padding_image img (pyInt (((margin_width * min img.w img.h : ℤ) : ℚ) / 100))
    side_tlr

/-- `PureWhiteMarginProcessor.process` (source lines 407-411): the same
thickness on all four sides (the location string tlrb). -/
def pure_white_margin_process (img : Img) (margin_width : ℤ) : Img :=
  padding_image img (pyInt (((margin_width * min img.w img.h : ℤ) : ℚ) / 100))
    side_tlrb

/-- Constant `PADDING_PERCENT_IN_BACKGROUND = 0.18` (source line 362). -/
def padding_percent_in_background : ℚ := 18 / 100

/-- Outcome of `BackgroundBlurProcessor.process`: the output dimensions, the
paste position of the sharp original, and the white-blend weight of the
backdrop. -/
structure BackgroundBlurOut where
  out : Img
  paste_x : ℤ
  paste_y : ℤ
  blend_white : ℚ
deriving DecidableEq

/-- `BackgroundBlurProcessor.process` (source lines 370-380) on dimensions:
the blurred backdrop is blended a tenth toward white
(`Image.blend(background, fg, 0.1)`), resized to
`(int(W * 1.18), int(H * 1.18))`, and the sharp working image is pasted at
`(int(W * 0.18 / 2), int(H * 0.18 / 2))`. -/
def background_blur_process (img : Img) : BackgroundBlurOut :=
  { out := ⟨pyInt ((img.w : ℚ) * (1 + padding_percent_in_background)),
            pyInt ((img.h : ℚ) * (1 + padding_percent_in_background))⟩
    paste_x := pyInt ((img.w : ℚ) * padding_percent_in_background / 2)
    paste_y := pyInt ((img.h : ℚ) * padding_percent_in_background / 2)
    blend_white := 1 / 10 }

/-- The two kinds of divider bitmap a watermark layout can pick:
`LINE_GRAY` or `LINE_TRANSPARENT` (source lines 31-32). -/
inductive LineKind where
  | gray
  | transparent
deriving DecidableEq

/-- Divider selection of `WatermarkProcessor.process` (source lines 177-196):
the left-logo branch always takes `LINE_TRANSPARENT.copy()`; the right-logo
branch takes the padded `LINE_GRAY` when the logo loader returned a bitmap and
`LINE_TRANSPARENT.copy()` when it returned `None`. -/
def watermark_divider (logo_left logo_present : Bool) : LineKind :=
  if logo_left then LineKind.transparent
  else if logo_present then LineKind.gray else LineKind.transparent

/-- A Python value that the `logo_position` attribute can hold: a string such
as left or right, or a boolean (as `CustomWatermarkProcessor.__init__`
stores). -/
inductive PyVal where
  | ofString (s : String)
  | ofBool (b : Bool)
deriving DecidableEq

/-- Python equality `logo_position == 'left'`: a `bool` operand never equals a
string in Python, and two strings compare by content. -/
def py_eq_left : PyVal → Bool
  | PyVal.ofString s => s == "left"
  | PyVal.ofBool _ => false

/-- `WatermarkProcessor.is_logo_left` (source lines 125-126):
`self.logo_position == 'left'`. -/
def is_logo_left (logo_position : PyVal) : Bool := py_eq_left logo_position

/-- `CustomWatermarkProcessor.__init__` (source line 278):
`self.logo_position = self.config.is_logo_left()` stores the BOOLEAN returned
by the config accessor, not a position string. -/
def custom_watermark_logo_position (config_is_logo_left : Bool) : PyVal :=
  PyVal.ofBool config_is_logo_left

/-- Width-driven scale factor of `BackgroundBlurWithParamsProcessor.process`
(source line 470): `max_text_width / max_text_image_width` when the maximal
text-bitmap width is positive, else the neutral factor `1.0`. -/
def bbwp_width_scale (max_text_width max_text_image_width : ℤ) : ℚ :=
  if 0 < max_text_image_width then
    (max_text_width : ℚ) / max_text_image_width
  else 1

/-- Text-scaling block of `BackgroundBlurWithParamsProcessor.process` (source
lines 457-484), with `total_text_height` a parameter exactly as the code binds
it before the guard `if total_text_height > 0`.  Arguments are the caption band
height `params_area_height`, the width budget `max_text_width`, and the model
and parameter text-bitmap dimensions; the result is the pair of scaled
(width, height) pairs. -/
def bbwp_scale_core (params_area_height max_text_width : ℤ)
    (mw mh pw ph : ℤ) (total_text_height : ℤ) : (ℤ × ℤ) × (ℤ × ℤ) :=
  if 0 < total_text_height then
    let height_scale : ℚ := (params_area_height : ℚ) / total_text_height
    let width_scale : ℚ := bbwp_width_scale max_text_width (max mw pw)
    let scale_factor : ℚ := min height_scale width_scale
    let m := if 0 < mh then
        (pyInt (mw * scale_factor), pyInt (mh * scale_factor)) else (mw, mh)
    let p := if 0 < ph then
        (pyInt (pw * scale_factor), pyInt (ph * scale_factor)) else (pw, ph)
    (m, p)
  else ((mw, mh), (pw, ph))

/-- Caption band height of `BackgroundBlurWithParamsProcessor.process` (source
line 420): `int(container.get_height() * 0.08)`. -/
def bbwp_band_height (h : ℤ) : ℤ := pyInt ((h : ℚ) * 8 / 100)

/-- Width budget of `BackgroundBlurWithParamsProcessor.process` (source line
458): `int(container.get_width() * 0.75)`. -/
def bbwp_max_text_width (w : ℤ) : ℤ := pyInt ((w : ℚ) * 75 / 100)

/-- The text-scaling step as `BackgroundBlurWithParamsProcessor.process`
invokes it: `total_text_height = model.height + param.height + 10` (source
line 461). -/
def bbwp_scale (w h mw mh pw ph : ℤ) : (ℤ × ℤ) × (ℤ × ℤ) :=
  bbwp_scale_core (bbwp_band_height h) (bbwp_max_text_width w)
    mw mh pw ph (mh + ph + 10)

/-- The single scale factor `min(height_scale, width_scale)` that source lines
463-473 apply to both text bitmaps. -/
def bbwp_scale_factor (w h mw mh pw ph : ℤ) : ℚ :=
  min ((bbwp_band_height h : ℚ) / ((mh + ph + 10 : ℤ) : ℚ))
    (bbwp_width_scale (bbwp_max_text_width w) (max mw pw))

/-- Text placement computed by `BackgroundBlurWithParamsProcessor.process`
(source lines 486-499). -/
structure BbwpPlacement where
  start_y : ℤ
  model_x : ℤ
  model_y : ℤ
  param_x : ℤ
  param_y : ℤ
deriving DecidableEq

/-- Placement step of `BackgroundBlurWithParamsProcessor.process` (source lines
486-499), given the enlarged canvas size, the caption band height, the top
padding, and the scaled text-bitmap dimensions.  Python `//` is floor division,
`Int.fdiv`.  The code sets `model_y = start_y` and
`param_y = start_y - model_image.height + 10`. -/
def bbwp_place (final_width final_height params_area_height top_padding : ℤ)
    (mw mh pw ph : ℤ) : BbwpPlacement :=
  let total_text_height := mh + ph + 10
  let start_y := final_height - params_area_height
      + Int.fdiv (params_area_height - total_text_height) 2 - top_padding
  { start_y := start_y
    model_x := Int.fdiv (final_width - mw) 2
    model_y := start_y
    param_x := Int.fdiv (final_width - pw) 2
    param_y := start_y - mh + 10 }

/-- The whole text pipeline of `BackgroundBlurWithParamsProcessor.process` on
dimensions: canvas sizing (source lines 420-427), text scaling (457-484) and
text placement (486-499), wired exactly as the code wires them. -/
def bbwp_layout (w h mw mh pw ph : ℤ) : BbwpPlacement :=
  let params_area_height := bbwp_band_height h
  let final_width := pyInt ((w : ℚ) * (1 + padding_percent_in_background))
  let final_height :=
    pyInt ((h : ℚ) * (1 + padding_percent_in_background)) + params_area_height
  let total_padding_height := pyInt ((h : ℚ) * padding_percent_in_background)
  let top_padding := Int.fdiv total_padding_height 10
  let scaled := bbwp_scale w h mw mh pw ph
  bbwp_place final_width final_height params_area_height top_padding
    scaled.1.1 scaled.1.2 scaled.2.1 scaled.2.2

/-- C1: for every pair of watermark columns (hence for every container and
every choice of quadrant text bitmaps, empty ones included) and every padding
ratio, the column-normalization step of `WatermarkProcessor.process` leaves the
left and the right column with exactly equal final pixel height. -/
theorem normalize_columns_equal_height (lt lb rt rb : Img) (padding_ratio : ℚ) :
    ((normalize_columns (watermark_column lt lb) (watermark_column rt rb)
        padding_ratio).1).h
      = ((normalize_columns (watermark_column lt lb) (watermark_column rt rb)
        padding_ratio).2).h := by
  simp [normalize_columns, padding_image, side_tb, side_t, side_b]
  ring

/-- C2: for every working image and every assembled watermark band, the output
of the composition step of `WatermarkProcessor.process` (any variant) has the
working image's width, and its height is the working image's height plus the
height of the band once the band has been uniformly rescaled to the working
width; the two composited canvases have identical size, and the band content
starts exactly at the photo's bottom row, so photo and band do not overlap. -/
theorem watermark_composite_dims (photo band : Img) :
    (watermark_composite photo band).result.w = photo.w ∧
    (watermark_composite photo band).result.h
        = photo.h + (resize_image_with_width band photo.w).h ∧
    (watermark_composite photo band).fg = (watermark_composite photo band).bg ∧
    (watermark_composite photo band).band_top = photo.h := by
  refine ⟨?_, ?_, ?_, rfl⟩
  all_goals
    simp [watermark_composite, alpha_composite, padding_image,
      resize_image_with_width, side_b, side_t, Img.mk.injEq]
  all_goals ring

/-- C3: the claim fails on the code.  `ImageOps.expand` with border
`(0, padding_size)` pads top AND bottom, and in the branch taken the computed
padding is negative (a crop), so the original aspect ratio is not restored.
At a 4000x3200 working image (a 4000x3000 photo, aspect 4/3, after a 200px
band) the code computes `int(4000/(4/3) - 3200) = -200`, crops 200px from the
top and from the bottom, and yields a 4000x2800 image of rounded aspect 1.43,
not 1.33.  Even where the computed padding is 0 (a non-negative value, as the
stage's precondition demands), as for a 10x10 image of original aspect 26/25,
the image is left unchanged and the rounded aspects 1.00 and 1.04 differ. -/
theorem padding_to_original_ratio_not_restored :
    padding_to_original_ratio_process ⟨4000, 3200⟩ (4 / 3) = ⟨4000, 2800⟩ ∧
    round2 (img_aspect ⟨4000, 2800⟩) = 143 ∧ round2 (4 / 3) = 133 ∧
    padding_to_original_ratio_process ⟨10, 10⟩ (26 / 25) = ⟨10, 10⟩ ∧
    round2 (img_aspect ⟨10, 10⟩) = 100 ∧ round2 (26 / 25) = 104 := by
  refine ⟨?_, ?_, ?_, ?_, ?_, ?_⟩
  all_goals
    norm_num [padding_to_original_ratio_process, img_aspect, pyInt, round2,
      round_eq, Rat.floor_def]

/-- Truncation toward zero agrees with the floor on non-negative values. -/
theorem pyInt_of_nonneg {q : ℚ} (h : 0 ≤ q) : pyInt q = ⌊q⌋ := if_pos h

/-- A floor is non-negative whenever its argument is. -/
theorem pyInt_nonneg {q : ℚ} (h : 0 ≤ q) : 0 ≤ pyInt q := by
  rw [pyInt_of_nonneg h]
  exact Int.floor_nonneg.mpr h

/-- Doubling an argument at most doubles its floor, up to one. -/
theorem floor_double_bounds (x : ℚ) :
    2 * ⌊x⌋ ≤ ⌊2 * x⌋ ∧ ⌊2 * x⌋ ≤ 2 * ⌊x⌋ + 1 := by
  constructor
  · refine Int.le_floor.mpr ?_
    push_cast
    linarith [Int.floor_le x]
  · have h1 : (2 : ℚ) * x < ((2 * ⌊x⌋ + 2 : ℤ) : ℚ) := by
      push_cast
      linarith [Int.lt_floor_add_one x]
    have h2 := Int.floor_lt.mpr h1
    omega

/-- C6: for every working image and margin percentage, `MarginProcessor`
thickens the image by `s = int(margin_width * min(w, h) / 100)` on top, left
and right only (bottom unchanged), `PureWhiteMarginProcessor` by `s` on all
four sides; `s` is the floored quotient whenever the product is non-negative,
and a 3000x4000 image with margin width 5 comes out of `PureWhiteMargin` as
`(3000 + 2 * 150, 4000 + 2 * 150)`. -/
theorem margin_and_pure_white_margin_dims (img : Img) (margin_width : ℤ) :
    margin_process img margin_width
        = ⟨img.w + 2 * pyInt (((margin_width * min img.w img.h : ℤ) : ℚ) / 100),
           img.h + pyInt (((margin_width * min img.w img.h : ℤ) : ℚ) / 100)⟩ ∧
    pure_white_margin_process img margin_width
        = ⟨img.w + 2 * pyInt (((margin_width * min img.w img.h : ℤ) : ℚ) / 100),
           img.h
             + 2 * pyInt (((margin_width * min img.w img.h : ℤ) : ℚ) / 100)⟩ ∧
    (0 ≤ margin_width * min img.w img.h →
      pyInt (((margin_width * min img.w img.h : ℤ) : ℚ) / 100)
        = ⌊((margin_width * min img.w img.h : ℤ) : ℚ) / 100⌋) ∧
    pure_white_margin_process ⟨3000, 4000⟩ 5 = ⟨3300, 4300⟩ := by
  refine ⟨?_, ?_, fun hp => pyInt_of_nonneg (by positivity), ?_⟩
  · simp [margin_process, padding_image, side_tlr, Img.mk.injEq]
    ring
  · simp [pure_white_margin_process, padding_image, side_tlrb, Img.mk.injEq]
    constructor <;> ring
  · norm_num [pure_white_margin_process, padding_image, side_tlrb, pyInt,
      Rat.floor_def]

/-- Closed instance of the C6 theorem discharging its inner hypothesis at the
3000x4000 image with margin width 5. -/
theorem margin_and_pure_white_margin_dims_witness :
    pyInt (((5 * min (3000 : ℤ) 4000 : ℤ) : ℚ) / 100)
        = ⌊((5 * min (3000 : ℤ) 4000 : ℤ) : ℚ) / 100⌋ ∧
    pure_white_margin_process ⟨3000, 4000⟩ 5 = ⟨3300, 4300⟩ :=
  ⟨(margin_and_pure_white_margin_dims ⟨3000, 4000⟩ 5).2.2.1 (by decide),
   (margin_and_pure_white_margin_dims ⟨3000, 4000⟩ 5).2.2.2⟩

/-- Bounds on a single axis of `BackgroundBlurProcessor.process`: the output
extent is the floored 1.18 enlargement, the pasted original fits inside it
starting at the paste offset, and the margins left of and right of the pasted
original differ by at most one pixel (centering up to rounding). -/
theorem background_blur_axis (n : ℤ) (hn : 0 ≤ n) :
    pyInt ((n : ℚ) * (1 + padding_percent_in_background))
        = ⌊((118 * n : ℤ) : ℚ) / 100⌋ ∧
    pyInt ((n : ℚ) * padding_percent_in_background / 2) + n
        ≤ pyInt ((n : ℚ) * (1 + padding_percent_in_background)) ∧
    0 ≤ pyInt ((n : ℚ) * (1 + padding_percent_in_background)) - n
        - 2 * pyInt ((n : ℚ) * padding_percent_in_background / 2) ∧
    pyInt ((n : ℚ) * (1 + padding_percent_in_background)) - n
        - 2 * pyInt ((n : ℚ) * padding_percent_in_background / 2) ≤ 1 := by
  have hn' : (0 : ℚ) ≤ (n : ℚ) := by exact_mod_cast hn
  set x : ℚ := (n : ℚ) * padding_percent_in_background / 2 with hxdef
  have hx0 : 0 ≤ x := by
    rw [hxdef]
    unfold padding_percent_in_background
    positivity
  have hkey : (n : ℚ) * (1 + padding_percent_in_background) = (n : ℚ) + 2 * x := by
    rw [hxdef]
    ring
  have hout : pyInt ((n : ℚ) * (1 + padding_percent_in_background))
      = n + ⌊2 * x⌋ := by
    rw [pyInt_of_nonneg (by rw [hkey]; positivity), hkey, Int.floor_int_add]
  have hpaste : pyInt ((n : ℚ) * padding_percent_in_background / 2) = ⌊x⌋ := by
    rw [← hxdef, pyInt_of_nonneg hx0]
  have hdbl := floor_double_bounds x
  refine ⟨?_, ?_, ?_, ?_⟩
  · rw [hout]
    have : ((118 * n : ℤ) : ℚ) / 100 = (n : ℚ) + 2 * x := by
      rw [hxdef]
      unfold padding_percent_in_background
      push_cast
      ring
    rw [this, Int.floor_int_add]
  · rw [hout, hpaste]
    have := Int.floor_mono (le_of_eq rfl : x ≤ x)
    have hmono : ⌊x⌋ ≤ ⌊2 * x⌋ := Int.floor_mono (by linarith)
    omega
  · rw [hout, hpaste]
    omega
  · rw [hout, hpaste]
    omega

/-- C7: for every working image of non-negative dimensions `(N, M)`,
`BackgroundBlurProcessor.process` produces a working image of dimensions
exactly `(floor(N * 1.18), floor(M * 1.18))`; the backdrop is blended one
tenth toward white, and the sharp original is pasted inside the enlarged
backdrop with its left/right and top/bottom margins each equal up to one
pixel (centered up to rounding). -/
theorem background_blur_dims (img : Img) (hw : 0 ≤ img.w) (hh : 0 ≤ img.h) :
    (background_blur_process img).out.w = ⌊((118 * img.w : ℤ) : ℚ) / 100⌋ ∧
    (background_blur_process img).out.h = ⌊((118 * img.h : ℤ) : ℚ) / 100⌋ ∧
    (background_blur_process img).blend_white = 1 / 10 ∧
    (background_blur_process img).paste_x + img.w
        ≤ (background_blur_process img).out.w ∧
    (background_blur_process img).paste_y + img.h
        ≤ (background_blur_process img).out.h ∧
    0 ≤ (background_blur_process img).out.w - img.w
        - 2 * (background_blur_process img).paste_x ∧
    (background_blur_process img).out.w - img.w
        - 2 * (background_blur_process img).paste_x ≤ 1 ∧
    0 ≤ (background_blur_process img).out.h - img.h
        - 2 * (background_blur_process img).paste_y ∧
    (background_blur_process img).out.h - img.h
        - 2 * (background_blur_process img).paste_y ≤ 1 := by
  obtain ⟨w1, w2, w3, w4⟩ := background_blur_axis img.w hw
  obtain ⟨h1, h2, h3, h4⟩ := background_blur_axis img.h hh
  exact ⟨w1, h1, rfl, by simpa [background_blur_process] using w2,
    by simpa [background_blur_process] using h2,
    by simpa [background_blur_process] using w3,
    by simpa [background_blur_process] using w4,
    by simpa [background_blur_process] using h3,
    by simpa [background_blur_process] using h4⟩

/-- Closed instance of the C7 theorem at a 4000x3000 working image. -/
theorem background_blur_dims_witness :
    (background_blur_process ⟨4000, 3000⟩).out.w
        = ⌊((118 * (4000 : ℤ) : ℤ) : ℚ) / 100⌋ ∧
    (background_blur_process ⟨4000, 3000⟩).out.h
        = ⌊((118 * (3000 : ℤ) : ℤ) : ℚ) / 100⌋ ∧
    (background_blur_process ⟨4000, 3000⟩).blend_white = 1 / 10 ∧
    (background_blur_process ⟨4000, 3000⟩).paste_x + 4000
        ≤ (background_blur_process ⟨4000, 3000⟩).out.w ∧
    (background_blur_process ⟨4000, 3000⟩).paste_y + 3000
        ≤ (background_blur_process ⟨4000, 3000⟩).out.h ∧
    0 ≤ (background_blur_process ⟨4000, 3000⟩).out.w - 4000
        - 2 * (background_blur_process ⟨4000, 3000⟩).paste_x ∧
    (background_blur_process ⟨4000, 3000⟩).out.w - 4000
        - 2 * (background_blur_process ⟨4000, 3000⟩).paste_x ≤ 1 ∧
    0 ≤ (background_blur_process ⟨4000, 3000⟩).out.h - 3000
        - 2 * (background_blur_process ⟨4000, 3000⟩).paste_y ∧
    (background_blur_process ⟨4000, 3000⟩).out.h - 3000
        - 2 * (background_blur_process ⟨4000, 3000⟩).paste_y ≤ 1 :=
  background_blur_dims ⟨4000, 3000⟩ (by decide) (by decide)

/-- C8: counterexample to the claim as stated.  With the logo position left and
a logo bitmap present, the divider assembled by `WatermarkProcessor.process` is
the transparent spacer, not the solid gray line the claim requires. -/
theorem watermark_divider_left_with_logo_not_gray :
    watermark_divider true true ≠ LineKind.gray := by decide

/-- C8 (amended): only in the right logo position does the divider depend on
the logo: solid gray when the loader returned a bitmap, transparent spacer when
it returned `None`; in the left logo position the divider is always the
transparent spacer, logo present or not. -/
theorem watermark_divider_by_position : ∀ logo_present : Bool,
    watermark_divider false logo_present
        = (if logo_present then LineKind.gray else LineKind.transparent) ∧
    watermark_divider true logo_present = LineKind.transparent := by decide

/-- C10: whatever boolean the config accessor returns,
`CustomWatermarkProcessor` stores it in `logo_position`, its `is_logo_left`
(which compares against the string left) therefore returns `false`, and the
assembly branch taken is the one of a right-positioned logo. -/
theorem custom_watermark_takes_right_branch : ∀ b : Bool,
    is_logo_left (custom_watermark_logo_position b) = false ∧
    ∀ logo_present : Bool,
      watermark_divider (is_logo_left (custom_watermark_logo_position b))
          logo_present
        = watermark_divider false logo_present := by decide

/-- C9: the scaling block of `BackgroundBlurWithParamsProcessor.process` is
total at its guards: with a zero maximal text-bitmap width the width-driven
scale defaults to the neutral factor 1, with a zero combined text height the
whole block is skipped and the bitmaps pass through unchanged, and the
combined text height the code actually computes (`mh + ph + 10` over
non-negative bitmap heights) is positive, so the height-driven division in the
taken branch never divides by zero. -/
theorem bbwp_scale_guards (params_area_height max_text_width : ℤ)
    (mw mh pw ph total_text_height : ℤ)
    (hmh : 0 ≤ mh) (hph : 0 ≤ ph) (hz : total_text_height = 0) :
    bbwp_width_scale max_text_width 0 = 1 ∧
    bbwp_scale_core params_area_height max_text_width mw mh pw ph
        total_text_height
      = ((mw, mh), (pw, ph)) ∧
    0 < mh + ph + 10 := by
  subst hz
  refine ⟨?_, ?_, by omega⟩
  · simp [bbwp_width_scale]
  · simp [bbwp_scale_core]

/-- Closed instance of the C9 theorem with all hypotheses discharged. -/
theorem bbwp_scale_guards_witness :
    bbwp_width_scale 750 0 = 1 ∧
    bbwp_scale_core 80 750 10 100 10 60 0 = ((10, 100), (10, 60)) ∧
    0 < (100 : ℤ) + 60 + 10 :=
  bbwp_scale_guards 80 750 10 100 10 60 0 (by decide) (by decide) rfl

/-- C4: counterexample to the claim as stated.  At a 1000x1000 working image
with a 10x100 model text bitmap and a 10x60 parameter text bitmap, the scaled
bitmaps are 4x47 and 4x28, and the stacked text (model height plus parameter
height plus the fixed 10px gap) measures 85 pixels: taller than the 80px
caption band, because the 10px gap is part of the height the scale factor is
computed from but is itself never scaled. -/
theorem bbwp_stacked_text_exceeds_band :
    bbwp_scale 1000 1000 10 100 10 60 = ((4, 47), (4, 28)) ∧
    bbwp_band_height 1000 = 80 ∧
    bbwp_band_height 1000
      < (bbwp_scale 1000 1000 10 100 10 60).1.2
        + (bbwp_scale 1000 1000 10 100 10 60).2.2 + 10 := by
  refine ⟨?_, ?_, ?_⟩
  all_goals
    norm_num [bbwp_scale, bbwp_scale_core, bbwp_width_scale, bbwp_band_height,
      bbwp_max_text_width, pyInt, Rat.floor_def, min_def]

/-- C4 (amended): for every working image of non-negative dimensions and text
bitmaps of non-negative widths and positive heights, both text bitmaps are
scaled by the single factor `min(height_scale, width_scale)`; after scaling
neither bitmap is wider than `int(0.75 * W)`, and the two scaled bitmap
heights sum to at most the caption band height `int(0.08 * H)` — though the
stacked text including the unscaled fixed 10px gap may exceed the band height
by up to 10 pixels, as the counterexample shows. -/
theorem bbwp_scale_factor_bounds (w h mw mh pw ph : ℤ)
    (hw : 0 ≤ w) (hh : 0 ≤ h) (hmw : 0 ≤ mw) (hpw : 0 ≤ pw)
    (hmh : 0 < mh) (hph : 0 < ph) :
    bbwp_scale w h mw mh pw ph
        = ((pyInt ((mw : ℚ) * bbwp_scale_factor w h mw mh pw ph),
            pyInt ((mh : ℚ) * bbwp_scale_factor w h mw mh pw ph)),
           (pyInt ((pw : ℚ) * bbwp_scale_factor w h mw mh pw ph),
            pyInt ((ph : ℚ) * bbwp_scale_factor w h mw mh pw ph))) ∧
    (bbwp_scale w h mw mh pw ph).1.1 ≤ bbwp_max_text_width w ∧
    (bbwp_scale w h mw mh pw ph).2.1 ≤ bbwp_max_text_width w ∧
    (bbwp_scale w h mw mh pw ph).1.2 + (bbwp_scale w h mw mh pw ph).2.2
        ≤ bbwp_band_height h := by
  have hT : (0 : ℤ) < mh + ph + 10 := by omega
  have hh' : (0 : ℚ) ≤ (h : ℚ) := by exact_mod_cast hh
  have hw' : (0 : ℚ) ≤ (w : ℚ) := by exact_mod_cast hw
  have hmw' : (0 : ℚ) ≤ (mw : ℚ) := by exact_mod_cast hmw
  have hpw' : (0 : ℚ) ≤ (pw : ℚ) := by exact_mod_cast hpw
  have hmh' : (0 : ℚ) < (mh : ℚ) := by exact_mod_cast hmh
  have hph' : (0 : ℚ) < (ph : ℚ) := by exact_mod_cast hph
  have hA0 : 0 ≤ bbwp_band_height h := by
    unfold bbwp_band_height
    exact pyInt_nonneg (by positivity)
  have hM0 : 0 ≤ bbwp_max_text_width w := by
    unfold bbwp_max_text_width
    exact pyInt_nonneg (by positivity)
  have hA0' : (0 : ℚ) ≤ ((bbwp_band_height h : ℤ) : ℚ) := by exact_mod_cast hA0
  have hM0' : (0 : ℚ) ≤ ((bbwp_max_text_width w : ℤ) : ℚ) := by
    exact_mod_cast hM0
  set A := bbwp_band_height h
  set M := bbwp_max_text_width w
  set t : ℚ := ((mh : ℚ) + ph + 10)
  have ht0 : 0 < t := by positivity
  have hs0 : 0 ≤ (A : ℚ) / t := by positivity
  have hws0 : 0 ≤ bbwp_width_scale M (max mw pw) := by
    unfold bbwp_width_scale
    split
    · rename_i hc
      have : (0 : ℚ) < ((max mw pw : ℤ) : ℚ) := by exact_mod_cast hc
      positivity
    · norm_num
  set f : ℚ := bbwp_scale_factor w h mw mh pw ph with hfdef
  have hf_eq : f = min ((A : ℚ) / t) (bbwp_width_scale M (max mw pw)) := by
    rw [hfdef, bbwp_scale_factor]
    push_cast
    rfl
  have hf0 : 0 ≤ f := by
    rw [hf_eq]
    exact le_min hs0 hws0
  have hf_hs : f ≤ (A : ℚ) / t := hf_eq ▸ min_le_left _ _
  have hf_ws : f ≤ bbwp_width_scale M (max mw pw) := hf_eq ▸ min_le_right _ _
  have hstep : bbwp_scale w h mw mh pw ph
      = ((pyInt ((mw : ℚ) * f), pyInt ((mh : ℚ) * f)),
         (pyInt ((pw : ℚ) * f), pyInt ((ph : ℚ) * f))) := by
    simp only [bbwp_scale, bbwp_scale_core, hf_eq]
    rw [if_pos hT, if_pos hmh, if_pos hph]
    push_cast
    rfl
  have hwidth : ∀ u : ℤ, 0 ≤ u → (u : ℚ) ≤ ((max mw pw : ℤ) : ℚ) →
      pyInt ((u : ℚ) * f) ≤ M := by
    intro u hu hule
    have hu' : (0 : ℚ) ≤ (u : ℚ) := by exact_mod_cast hu
    have hbound : (u : ℚ) * f ≤ (M : ℚ) := by
      rcases le_or_lt (max mw pw) 0 with hmax | hmax
      · have hu0 : (u : ℚ) ≤ 0 := le_trans hule (by exact_mod_cast hmax)
        have : (u : ℚ) = 0 := le_antisymm hu0 hu'
        rw [this, zero_mul]
        exact hM0'
      · have hmax' : (0 : ℚ) < ((max mw pw : ℤ) : ℚ) := by exact_mod_cast hmax
        have hws : bbwp_width_scale M (max mw pw)
            = (M : ℚ) / ((max mw pw : ℤ) : ℚ) := by
          unfold bbwp_width_scale
          rw [if_pos hmax]
        have h1 : (u : ℚ) * f
            ≤ (u : ℚ) * ((M : ℚ) / ((max mw pw : ℤ) : ℚ)) := by
          apply mul_le_mul_of_nonneg_left _ hu'
          rw [← hws]
          exact hf_ws
        have h2 : (u : ℚ) * ((M : ℚ) / ((max mw pw : ℤ) : ℚ)) ≤ (M : ℚ) := by
          rw [mul_div_assoc', div_le_iff₀ hmax']
          calc (u : ℚ) * M = M * u := by ring
          _ ≤ M * ((max mw pw : ℤ) : ℚ) :=
            mul_le_mul_of_nonneg_left hule hM0'
        linarith
    calc pyInt ((u : ℚ) * f) = ⌊(u : ℚ) * f⌋ := pyInt_of_nonneg (by positivity)
    _ ≤ ⌊(M : ℚ)⌋ := Int.floor_mono hbound
    _ = M := Int.floor_intCast M
  have hheight : pyInt ((mh : ℚ) * f) + pyInt ((ph : ℚ) * f) ≤ A := by
    have hsum : (mh : ℚ) * f + (ph : ℚ) * f ≤ (A : ℚ) := by
      have h1 : (mh : ℚ) * f + (ph : ℚ) * f = ((mh : ℚ) + ph) * f := by ring
      have h2 : ((mh : ℚ) + ph) * f ≤ ((mh : ℚ) + ph) * ((A : ℚ) / t) :=
        mul_le_mul_of_nonneg_left hf_hs (by positivity)
      have h3 : ((mh : ℚ) + ph) * ((A : ℚ) / t) ≤ (A : ℚ) := by
        rw [mul_div_assoc', div_le_iff₀ ht0]
        have hle : ((mh : ℚ) + ph) ≤ t := by
          simp only [t]
          linarith
        calc ((mh : ℚ) + ph) * A = A * ((mh : ℚ) + ph) := by ring
        _ ≤ A * t := mul_le_mul_of_nonneg_left hle hA0'
      linarith
    have hfl1 := Int.floor_le ((mh : ℚ) * f)
    have hfl2 := Int.floor_le ((ph : ℚ) * f)
    rw [pyInt_of_nonneg (by positivity), pyInt_of_nonneg (by positivity)]
    have hcast : ((⌊(mh : ℚ) * f⌋ + ⌊(ph : ℚ) * f⌋ : ℤ) : ℚ) ≤ (A : ℚ) := by
      push_cast
      linarith
    exact_mod_cast hcast
  refine ⟨hstep, ?_, ?_, ?_⟩
  · rw [hstep]
    exact hwidth mw hmw (by exact_mod_cast le_max_left mw pw)
  · rw [hstep]
    exact hwidth pw hpw (by exact_mod_cast le_max_right mw pw)
  · rw [hstep]
    exact hheight

/-- Closed instance of the amended C4 theorem, its hypotheses discharged at
the counterexample input. -/
theorem bbwp_scale_factor_bounds_witness :
    (bbwp_scale 1000 1000 10 100 10 60).1.1 ≤ bbwp_max_text_width 1000 ∧
    (bbwp_scale 1000 1000 10 100 10 60).2.1 ≤ bbwp_max_text_width 1000 ∧
    (bbwp_scale 1000 1000 10 100 10 60).1.2
        + (bbwp_scale 1000 1000 10 100 10 60).2.2 ≤ bbwp_band_height 1000 :=
  (bbwp_scale_factor_bounds 1000 1000 10 100 10 60 (by decide) (by decide)
    (by decide) (by decide) (by decide) (by decide)).2

/-- C5: the claim fails on the code, and the code contradicts its own comment
(which says the parameter text goes below the camera name).  At a 1000x1000
working image with a 10x100 model text bitmap and a 10x60 parameter text
bitmap (scaled to 4x47 and 4x28), the enlarged canvas is 1180x1260 with an
80px caption band, and the code computes `model_y = start_y = 1159` but
`param_y = start_y - model_height + 10 = 1122`: the parameter text is pasted
37 pixels ABOVE the model name (stacking below with the 10px gap would place
it at 1216); moreover both texts start above the caption band, whose top row
is `1260 - 80 = 1180`, so the text is not vertically inside the band either. -/
theorem bbwp_param_text_above_model :
    bbwp_layout 1000 1000 10 100 10 60 = ⟨1159, 588, 1159, 588, 1122⟩ ∧
    (bbwp_layout 1000 1000 10 100 10 60).param_y
        < (bbwp_layout 1000 1000 10 100 10 60).model_y ∧
    (bbwp_layout 1000 1000 10 100 10 60).model_y
        < 1260 - bbwp_band_height 1000 := by
  refine ⟨?_, ?_, ?_⟩
  all_goals
    norm_num [bbwp_layout, bbwp_place, bbwp_scale, bbwp_scale_core,
      bbwp_width_scale, bbwp_band_height, bbwp_max_text_width,
      padding_percent_in_background, pyInt, Rat.floor_def, min_def]
  all_goals decide
